import Mathlib

/-!
Shallow embedding of `EasyMCP/DailyTaskReminder/storage.py` (class `TaskStorage`)
and of the filter validation in `EasyMCP/DailyTaskReminder/tools/list_tasks_tool.py`.

A task record is the dict built by `TaskStorage.add_task`.  Optional string
fields (`due_at`, `remind_at`) are `Option String`; Python truthiness of such a
field (`t.get("remind_at")`) is "present and non-empty".  The store state is the
list of task dicts held by the backing JSON file; every public operation is a
function from (inputs, state) to (result, new state).  The `uuid.uuid4().hex[:8]`
token drawn by `add_task` and the `datetime.now(...).isoformat()` timestamp are
external inputs of the embedding, passed as explicit arguments.
-/

/-- One task record, with the fields assigned by `TaskStorage.add_task`
(storage.py lines 36-45). -/
structure TaskRecord where
  id : String
  title : String
  description : String
  due_at : Option String
  remind_at : Option String
  status : String
  notified : Bool
  created_at : String
deriving Repr, DecidableEq

/-- Python string comparison `a < b` (lexicographic on code points), as used on
ISO timestamp strings by storage.py.  `List Char` ordered lexicographically by
code point is exactly Lean's `String <` relation on `String.data`. -/
def strLt (a b : String) : Bool := decide (a.data < b.data)

/-- Python string comparison `a <= b`. -/
def strLe (a b : String) : Bool := (a == b) || strLt a b

/-- Python `a.startswith(b)`: `b.data` is a prefix of `a.data`. -/
def strStartsWith (a b : String) : Bool := b.data.isPrefixOf a.data

/-- Python truthiness of an optional string field, e.g. `t.get("remind_at")`:
true iff the field is present and non-empty. -/
def optTruthy (o : Option String) : Bool :=
  match o with
  | none => false
  | some s => !(s == "")

/-- Embedding of `TaskStorage.add_task` (storage.py lines 28-49): builds the new record,
appends it to the loaded collection and persists.  `genId` is the
`uuid.uuid4().hex[:8]` token, `created_at` the creation timestamp. -/
def add_task (genId : String) (title : String) (description : String)
    (due_at : Option String) (remind_at : Option String) (created_at : String)
    (tasks : List TaskRecord) : TaskRecord × List TaskRecord :=
  let task : TaskRecord :=
    { id := genId
      title := title
      description := description
      due_at := due_at
      remind_at := remind_at
      status := "pending"
      notified := false
      created_at := created_at }
  (task, tasks ++ [task])

/-- Embedding of `TaskStorage.get_task` (storage.py lines 51-63): exact id match first, then
a prefix match when the lookup string has at least 4 characters and exactly one
record's id starts with it. -/
def get_task (task_id : String) (tasks : List TaskRecord) : Option TaskRecord :=
  match tasks.find? (fun t => t.id == task_id) with
  | some t => some t
  | none =>
    if task_id.length ≥ 4 then
      let ms := tasks.filter (fun t => strStartsWith t.id task_id)
      if ms.length == 1 then ms.head? else none
    else none

/-- Index form of `TaskStorage._find` (storage.py lines 162-172).  The Python
code returns the matched dict by reference and the callers mutate it in place;
the embedding returns the position of that dict so that the mutation becomes a
positional replacement.  The prefix branch succeeds only when exactly one
record's id starts with the lookup string, and then the first (only) index with
that property is the match. -/
def findTaskIdx (tasks : List TaskRecord) (task_id : String) : Option Nat :=
  match tasks.findIdx? (fun t => t.id == task_id) with
  | some i => some i
  | none =>
    if task_id.length ≥ 4 then
      let ms := tasks.filter (fun t => strStartsWith t.id task_id)
      if ms.length == 1 then tasks.findIdx? (fun t => strStartsWith t.id task_id)
      else none
    else none

/-- Embedding of `TaskStorage._find` (storage.py lines 162-172): the record at the resolved
index. -/
def findTask (tasks : List TaskRecord) (task_id : String) : Option TaskRecord :=
  (findTaskIdx tasks task_id).bind (fun i => tasks.get? i)

/-- The `**fields` keyword dict accepted by `TaskStorage.update_task`: any
subset of the record's fields may be supplied; `none` means the key is absent
from the dict. -/
structure FieldUpdates where
  id : Option String := none
  title : Option String := none
  description : Option String := none
  due_at : Option (Option String) := none
  remind_at : Option (Option String) := none
  status : Option String := none
  notified : Option Bool := none
  created_at : Option String := none
deriving Repr, DecidableEq

/-- Python `task.update(fields)`: each supplied key overwrites the record's
field, absent keys leave it unchanged. -/
def applyFields (t : TaskRecord) (f : FieldUpdates) : TaskRecord :=
  { id := f.id.getD t.id
    title := f.title.getD t.title
    description := f.description.getD t.description
    due_at := f.due_at.getD t.due_at
    remind_at := f.remind_at.getD t.remind_at
    status := f.status.getD t.status
    notified := f.notified.getD t.notified
    created_at := f.created_at.getD t.created_at }

/-- Embedding of `TaskStorage.update_task` (storage.py lines 85-96): resolve the id as in
`_find`, apply the field dict to that record in place, persist, return the
updated record; `(none, tasks)` when not found. -/
def update_task (task_id : String) (fields : FieldUpdates) (tasks : List TaskRecord) :
    Option TaskRecord × List TaskRecord :=
  match findTaskIdx tasks task_id with
  | none => (none, tasks)
  | some i =>
    match tasks.get? i with
    | none => (none, tasks)
    | some t =>
      let t2 := applyFields t fields
      (some t2, tasks.set i t2)

/-- Embedding of `TaskStorage.complete_task` (storage.py lines 98-100):
`update_task(task_id, status="completed")`. -/
def complete_task (task_id : String) (tasks : List TaskRecord) : Option TaskRecord × List TaskRecord :=
  update_task task_id { status := some ("completed") } tasks

/-- Embedding of `TaskStorage.delete_task` (storage.py lines 102-110): resolve the id, remove
that record from the collection, persist, return the removed record. -/
def delete_task (task_id : String) (tasks : List TaskRecord) : Option TaskRecord × List TaskRecord :=
  match findTaskIdx tasks task_id with
  | none => (none, tasks)
  | some i =>
    match tasks.get? i with
    | none => (none, tasks)
    | some t => (some t, tasks.eraseIdx i)

/-- The per-record selection of `TaskStorage.list_tasks` for the `overdue`
filter (storage.py line 81):
`t["status"] == "pending" and t.get("due_at") and t["due_at"] < now`. -/
def isOverdueB (now : String) (t : TaskRecord) : Bool :=
  t.status == "pending" && optTruthy t.due_at && strLt (t.due_at.getD ("")) now

/-- Embedding of `TaskStorage.list_tasks` (storage.py lines 65-83).  `now` is the
`datetime.now(timezone.utc).isoformat()` string used by the `overdue` branch.
Any filter string other than `all`/`pending`/`completed`/`overdue` falls
through to the final `return tasks`. -/
def list_tasks (status_filter : String) (now : String) (tasks : List TaskRecord) :
    List TaskRecord :=
  if status_filter == "all" then tasks
  else if status_filter == "pending" then
    tasks.filter (fun t => t.status == "pending")
  else if status_filter == "completed" then
    tasks.filter (fun t => t.status == "completed")
  else if status_filter == "overdue" then
    tasks.filter (isOverdueB now)
  else tasks

/-- The per-record selection of `TaskStorage.get_due_reminders`
(storage.py lines 119-125): `t["status"] == "pending" and t.get("remind_at")
and t["remind_at"] <= now and not t.get("notified", False)`. -/
def isDueB (now : String) (t : TaskRecord) : Bool :=
  t.status == "pending" && optTruthy t.remind_at
    && strLe (t.remind_at.getD ("")) now && !t.notified

/-- Mutation `t["notified"] = True` (storage.py line 128). -/
def markNotified (t : TaskRecord) : TaskRecord := { t with notified := true }

/-- Result of one `get_due_reminders` call: the returned list, the resulting
persisted collection, and whether a save was performed (`if due:` guard,
storage.py line 126). -/
structure DueOutcome where
  due : List TaskRecord
  state : List TaskRecord
  saved : Bool
deriving Repr, DecidableEq

/-- Embedding of `TaskStorage.get_due_reminders` (storage.py lines 112-130): select the due
records, and when the selection is non-empty set `notified=True` on each
selected record (the returned dicts are the mutated ones) and persist the whole
collection; when it is empty, no write happens. -/
def get_due_reminders (now : String) (tasks : List TaskRecord) : DueOutcome :=
  let due := tasks.filter (isDueB now)
  if due.isEmpty then
    { due := due, state := tasks, saved := false }
  else
    { due := due.map markNotified
      state := tasks.map (fun t => if isDueB now t then markNotified t else t)
      saved := true }

/-- Content of the backing JSON file as seen by `TaskStorage._load`
(storage.py lines 140-150): either a parseable task collection or malformed
text that makes `json.load` raise `JSONDecodeError`. -/
inductive FileContent where
  | good (tasks : List TaskRecord)
  | malformed (raw : String)
deriving Repr, DecidableEq

/-- Embedding of `TaskStorage._load`: returns the parsed collection, or `[]` when
`json.load` raises `JSONDecodeError` (the `except` branch, storage.py
lines 146-147). -/
def loadTasks : FileContent → List TaskRecord
  | FileContent.good tasks => tasks
  | FileContent.malformed _ => []

/-- Lift of `list_tasks` to the backing file: `_load` then filter. -/
def list_tasksFile (status_filter : String) (now : String) (f : FileContent) :
    List TaskRecord :=
  list_tasks status_filter now (loadTasks f)

/-- Lift of `get_task` to the backing file. -/
def get_taskFile (task_id : String) (f : FileContent) : Option TaskRecord :=
  get_task task_id (loadTasks f)

/-- Lift of `add_task` to the backing file. -/
def add_taskFile (genId : String) (title : String) (description : String)
    (due_at : Option String) (remind_at : Option String) (created_at : String)
    (f : FileContent) : TaskRecord × List TaskRecord :=
  add_task genId title description due_at remind_at created_at (loadTasks f)

/-- Lift of `get_due_reminders` to the backing file. -/
def get_due_remindersFile (now : String) (f : FileContent) : DueOutcome :=
  get_due_reminders now (loadTasks f)

/-- Valid filter names accepted by the adapter,
`VALID_FILTERS` in tools/list_tasks_tool.py line 10. -/
def VALID_FILTERS : List String := ["all", "pending", "completed", "overdue"]

/-- Embedding of `ListTasksTool.handle` (tools/list_tasks_tool.py lines 20-29).  The
`MCPRequest`/`MCPResponse` envelope lives in the external `core` package, so
the uniform success/failure contract is rendered as `Except`: a failure
response for a filter outside `VALID_FILTERS`, otherwise the store's
`list_tasks` result.  The payload's missing `filter` key defaults to
`pending`. -/
def listTasksHandle (payloadFilter : Option String) (now : String)
    (tasks : List TaskRecord) : Except String (List TaskRecord) :=
  let status_filter := payloadFilter.getD "pending"
  if VALID_FILTERS.contains status_filter then
    Except.ok (list_tasks status_filter now tasks)
  else
    Except.error ("Invalid filter " ++ status_filter)

/-- Well-formed optional fields, the data model of spec section 6: optional
string fields are either absent (`null`) or a real (non-empty) timestamp
string; the degenerate empty-string value does not occur. -/
def wfTask (t : TaskRecord) : Prop :=
  t.remind_at ≠ some ("") ∧ t.due_at ≠ some ("")

instance (t : TaskRecord) : Decidable (wfTask t) := by
  unfold wfTask; infer_instance

/-- Pairwise-distinct ids, the uniqueness invariant of spec section 3. -/
def idsNodup (tasks : List TaskRecord) : Prop := (tasks.map TaskRecord.id).Nodup

instance (tasks : List TaskRecord) : Decidable (idsNodup tasks) := by
  unfold idsNodup; infer_instance

/-- One call to `add_task`, with the external inputs it consumes: the
`uuid.uuid4().hex[:8]` token, the caller-supplied fields and the creation
timestamp. -/
structure AddCall where
  genId : String
  title : String
  description : String
  due_at : Option String
  remind_at : Option String
  created_at : String
deriving Repr, DecidableEq

/-- States reached by a sequence of `add_task` calls against one store. -/
def addAll (calls : List AddCall) (tasks : List TaskRecord) : List TaskRecord :=
  calls.foldl
    (fun st c =>
      (add_task c.genId c.title c.description c.due_at c.remind_at c.created_at st).2)
    tasks

/-- State reached by a sequence of `get_due_reminders` calls, one per entry of
`nows` (each entry is the wall-clock string that call observes). -/
def dueChainState (nows : List String) (tasks : List TaskRecord) : List TaskRecord :=
  nows.foldl (fun st n => (get_due_reminders n st).state) tasks

/-- Every record carrying the given id has `status = completed`. -/
def completedForId (tid : String) (tasks : List TaskRecord) : Prop :=
  ∀ t ∈ tasks, t.id = tid → t.status = "completed"

instance (tid : String) (tasks : List TaskRecord) :
    Decidable (completedForId tid tasks) := by
  unfold completedForId; infer_instance

/-- Monotonicity of the `notified` flag across one store operation: a record
that is `notified` in the old state is still `notified` in any record of the
new state that carries the same id. -/
def monoNotified (old new : List TaskRecord) : Prop :=
  ∀ t ∈ old, t.notified = true → ∀ u ∈ new, u.id = t.id → u.notified = true

instance (old new : List TaskRecord) : Decidable (monoNotified old new) := by
  unfold monoNotified; infer_instance

/-- Interleaved execution of two concurrent `get_due_reminders` calls on the
same backing file in which both `_load` phases run before either `_save`
phase.  This schedule is admitted by storage.py's locking: `_load` takes a
shared lock released before `_load` returns (lines 142-149) and `_save` takes
its exclusive lock only after the selection is computed (lines 154-160), so no
lock spans the load-modify-save sequence.  Components: caller 1's returned
list, caller 2's returned list, and the final file content (caller 2's save,
when performed, lands last and overwrites caller 1's). -/
def dueTwoCallersOverlapped (now : String) (file : List TaskRecord) :
    List TaskRecord × List TaskRecord × List TaskRecord :=
  let r1 := get_due_reminders now file
  let r2 := get_due_reminders now file
  let f1 := if r1.saved then r1.state else file
  let f2 := if r2.saved then r2.state else f1
  (r1.due, r2.due, f2)

/-- Wall-clock string used by the concrete scenarios below. -/
def demoNow : String := "2026-01-01T00:00:00+00:00"

/-- A second, later wall-clock string. -/
def demoLater : String := "2026-01-02T00:00:00+00:00"

/-- A pending task whose reminder time is in the past relative to `demoNow`
and which has not been notified (the record built by
`add_task("Past reminder", remind_at="2020-01-01T00:00:00+00:00")`). -/
def tPast : TaskRecord :=
  { id := "aaaabbbb"
    title := "Past reminder"
    description := ""
    due_at := none
    remind_at := some ("2020-01-01T00:00:00+00:00")
    status := "pending"
    notified := false
    created_at := "2019-01-01T00:00:00+00:00" }

/-- A pending task whose reminder time is in the future relative to
`demoNow`. -/
def tFuture : TaskRecord :=
  { id := "ccccdddd"
    title := "Future reminder"
    description := ""
    due_at := none
    remind_at := some ("2099-01-01T00:00:00+00:00")
    status := "pending"
    notified := false
    created_at := "2019-01-01T00:00:00+00:00" }

/-- A pending task whose deadline is in the past relative to `demoNow`. -/
def tOverduePending : TaskRecord :=
  { id := "eeeeffff"
    title := "Overdue pending"
    description := ""
    due_at := some ("2020-06-01T00:00:00+00:00")
    remind_at := none
    status := "pending"
    notified := false
    created_at := "2019-01-01T00:00:00+00:00" }

/-- A completed task with the same past deadline as `tOverduePending`. -/
def tOverdueCompleted : TaskRecord :=
  { id := "11112222"
    title := "Overdue completed"
    description := ""
    due_at := some ("2020-06-01T00:00:00+00:00")
    remind_at := none
    status := "completed"
    notified := false
    created_at := "2019-01-01T00:00:00+00:00" }

/-- An already-notified pending task. -/
def tNotified : TaskRecord :=
  { id := "33334444"
    title := "Already notified"
    description := ""
    due_at := none
    remind_at := some ("2020-01-01T00:00:00+00:00")
    status := "pending"
    notified := true
    created_at := "2019-01-01T00:00:00+00:00" }

/-- Task with id `abc12345`, the prefix-resolution demo of spec section 8. -/
def tAbc1 : TaskRecord :=
  { id := "abc12345"
    title := "Task A"
    description := ""
    due_at := none
    remind_at := none
    status := "pending"
    notified := false
    created_at := "2019-01-01T00:00:00+00:00" }

/-- Task with id `abc99999`, the prefix-resolution demo of spec section 8. -/
def tAbc9 : TaskRecord :=
  { id := "abc99999"
    title := "Task B"
    description := ""
    due_at := none
    remind_at := none
    status := "pending"
    notified := false
    created_at := "2019-01-01T00:00:00+00:00" }

/-- Store holding the two prefix-resolution demo tasks. -/
def demoPair : List TaskRecord := [tAbc1, tAbc9]

/-- The record `complete_task("aaaabbbb")` produces from `tPast`. -/
def tPastCompleted : TaskRecord :=
  { id := "aaaabbbb"
    title := "Past reminder"
    description := ""
    due_at := none
    remind_at := some ("2020-01-01T00:00:00+00:00")
    status := "completed"
    notified := false
    created_at := "2019-01-01T00:00:00+00:00" }

theorem markNotified_id (t : TaskRecord) : (markNotified t).id = t.id := rfl

theorem markNotified_status (t : TaskRecord) : (markNotified t).status = t.status := rfl

theorem markNotified_notified (t : TaskRecord) : (markNotified t).notified = true := rfl

theorem map_markIf_of_none_due (now : String) (tasks : List TaskRecord)
    (h : tasks.filter (isDueB now) = []) :
    tasks.map (fun t => if isDueB now t then markNotified t else t) = tasks := by
  have h2 : ∀ t ∈ tasks, isDueB now t = false := by
    intro t ht
    by_contra hne
    have hmem : t ∈ tasks.filter (isDueB now) :=
      List.mem_filter.mpr ⟨ht, by revert hne; cases isDueB now t <;> simp⟩
    rw [h] at hmem
    exact absurd hmem (List.not_mem_nil t)
  calc tasks.map (fun t => if isDueB now t then markNotified t else t)
      = tasks.map id := List.map_congr_left (by intro t ht; rw [h2 t ht]; rfl)
    _ = tasks := List.map_id tasks

theorem get_due_reminders_due (now : String) (tasks : List TaskRecord) :
    (get_due_reminders now tasks).due
      = (tasks.filter (isDueB now)).map markNotified := by
  unfold get_due_reminders
  by_cases h : (tasks.filter (isDueB now)).isEmpty
  · rw [List.isEmpty_iff] at h
    simp [h]
  · simp [h]

theorem get_due_reminders_state (now : String) (tasks : List TaskRecord) :
    (get_due_reminders now tasks).state
      = tasks.map (fun t => if isDueB now t then markNotified t else t) := by
  unfold get_due_reminders
  by_cases h : (tasks.filter (isDueB now)).isEmpty
  · rw [List.isEmpty_iff] at h
    simp [map_markIf_of_none_due now tasks h, h]
  · simp [h]

theorem get_due_reminders_saved (now : String) (tasks : List TaskRecord) :
    (get_due_reminders now tasks).saved
      = !(tasks.filter (isDueB now)).isEmpty := by
  unfold get_due_reminders
  by_cases h : (tasks.filter (isDueB now)).isEmpty <;> simp [h]

/-- C8: when the backing file's content cannot be parsed, `_load` yields the
empty collection instead of raising, and every operation built on `_load`
behaves exactly as it does on a well-formed empty collection. -/
theorem c8_malformed_file_as_empty (raw status_filter now task_id genId : String)
    (title description created_at : String) (due_at remind_at : Option String) :
    loadTasks (FileContent.malformed raw) = []
      ∧ list_tasksFile status_filter now (FileContent.malformed raw)
          = list_tasksFile status_filter now (FileContent.good [])
      ∧ get_taskFile task_id (FileContent.malformed raw)
          = get_taskFile task_id (FileContent.good [])
      ∧ add_taskFile genId title description due_at remind_at created_at
            (FileContent.malformed raw)
          = add_taskFile genId title description due_at remind_at created_at
            (FileContent.good [])
      ∧ get_due_remindersFile now (FileContent.malformed raw)
          = get_due_remindersFile now (FileContent.good []) :=
  ⟨rfl, rfl, rfl, rfl, rfl⟩

/-- C9: a `get_due_reminders` call whose selection is empty returns the empty
list, performs no save, and leaves the persisted collection (every record,
every field) unchanged. -/
theorem c9_no_due_no_write (now : String) (tasks : List TaskRecord)
    (h : tasks.filter (isDueB now) = []) :
    (get_due_reminders now tasks).due = []
      ∧ (get_due_reminders now tasks).saved = false
      ∧ (get_due_reminders now tasks).state = tasks := by
  refine ⟨?_, ?_, ?_⟩
  · rw [get_due_reminders_due, h]; rfl
  · rw [get_due_reminders_saved, h]; rfl
  · rw [get_due_reminders_state]; exact map_markIf_of_none_due now tasks h

theorem c9_witness :
    (get_due_reminders demoNow [tFuture, tNotified, tOverdueCompleted]).due = []
      ∧ (get_due_reminders demoNow [tFuture, tNotified, tOverdueCompleted]).saved
          = false
      ∧ (get_due_reminders demoNow [tFuture, tNotified, tOverdueCompleted]).state
          = [tFuture, tNotified, tOverdueCompleted] :=
  c9_no_due_no_write demoNow [tFuture, tNotified, tOverdueCompleted] (by decide)

/-- C10: at the store level, `list_tasks` with a filter string outside
`{all, pending, completed, overdue}` falls through to returning every record
unfiltered, identically to filter `all`; the adapter (`ListTasksTool.handle`)
is the layer that rejects such a filter with a failure response. -/
theorem c10_unknown_filter_falls_through (status_filter now : String)
    (tasks : List TaskRecord)
    (h : VALID_FILTERS.contains status_filter = false) :
    list_tasks status_filter now tasks = tasks
      ∧ list_tasks status_filter now tasks = list_tasks ("all") now tasks
      ∧ listTasksHandle (some status_filter) now tasks
          = Except.error ("Invalid filter " ++ status_filter) := by
  simp only [VALID_FILTERS, List.contains_cons, List.contains_nil,
    Bool.or_eq_false_iff, beq_eq_false_iff_ne, ne_eq] at h
  obtain ⟨h1, h2, h3, h4, _⟩ := h
  refine ⟨?_, ?_, ?_⟩
  · simp [list_tasks, h1, h2, h3, h4]
  · simp [list_tasks, h1, h2, h3, h4]
  · simp [listTasksHandle, VALID_FILTERS, h1, h2, h3, h4]

theorem c10_witness :
    VALID_FILTERS.contains ("bogus") = false
      ∧ (list_tasks ("bogus") demoNow [tPast, tOverdueCompleted]
            = [tPast, tOverdueCompleted]
          ∧ list_tasks ("bogus") demoNow [tPast, tOverdueCompleted]
              = list_tasks ("all") demoNow [tPast, tOverdueCompleted]
          ∧ listTasksHandle (some ("bogus")) demoNow [tPast, tOverdueCompleted]
              = Except.error ("Invalid filter " ++ "bogus")) :=
  ⟨by decide,
    c10_unknown_filter_falls_through ("bogus") demoNow [tPast, tOverdueCompleted]
      (by decide)⟩

theorem addAll_map_id (calls : List AddCall) (tasks : List TaskRecord) :
    (addAll calls tasks).map TaskRecord.id
      = tasks.map TaskRecord.id ++ calls.map AddCall.genId := by
  induction calls generalizing tasks with
  | nil => simp [addAll]
  | cons c cs ih =>
    have hstep : addAll (c :: cs) tasks
        = addAll cs
            ((add_task c.genId c.title c.description c.due_at c.remind_at
                c.created_at tasks).2) := rfl
    rw [hstep, ih]
    simp [add_task]

/-- C4 counterexample: `add_task` performs no uniqueness check, so a sequence
of two `add` calls whose generated `uuid.uuid4().hex[:8]` tokens collide
leaves two records with the same id in the store. -/
theorem c4_counterexample :
    ¬ idsNodup
        (addAll
          [⟨"deadbeef", "Task A", "", none, none, "2026-01-01T00:00:00+00:00"⟩,
           ⟨"deadbeef", "Task B", "", none, none, "2026-01-01T00:00:00+00:00"⟩]
          []) := by decide

/-- C4 amended: ids are pairwise distinct after every sequence of `add` calls
whose generated id tokens are pairwise distinct and distinct from the ids
already in the store; the store relies on that collision-freeness and never
deduplicates. -/
theorem c4_unique_ids_of_fresh_tokens (calls : List AddCall)
    (tasks : List TaskRecord)
    (h : (tasks.map TaskRecord.id ++ calls.map AddCall.genId).Nodup) :
    idsNodup (addAll calls tasks) := by
  unfold idsNodup
  rw [addAll_map_id]
  exact h

theorem c4_witness :
    (([] : List TaskRecord).map TaskRecord.id
        ++ ([⟨"aaaa1111", "Task A", "", none, none, "2026-01-01T00:00:00+00:00"⟩,
             ⟨"bbbb2222", "Task B", "", none, none, "2026-01-01T00:00:00+00:00"⟩]
              : List AddCall).map AddCall.genId).Nodup
      ∧ idsNodup
          (addAll
            [⟨"aaaa1111", "Task A", "", none, none, "2026-01-01T00:00:00+00:00"⟩,
             ⟨"bbbb2222", "Task B", "", none, none, "2026-01-01T00:00:00+00:00"⟩]
            []) :=
  ⟨by decide,
    c4_unique_ids_of_fresh_tokens
      [⟨"aaaa1111", "Task A", "", none, none, "2026-01-01T00:00:00+00:00"⟩,
       ⟨"bbbb2222", "Task B", "", none, none, "2026-01-01T00:00:00+00:00"⟩]
      [] (by decide)⟩

/-- C5 counterexample: `update_task` applies arbitrary field replacements, so
an update that supplies `notified=False` resets the flag of an
already-notified record, contradicting monotonicity of `notified` under every
store operation. -/
theorem c5_counterexample :
    ¬ monoNotified [tNotified]
        (update_task ("33334444") { notified := some false } [tNotified]).2 := by
  decide

/-- C2: the code releases the shared lock at the end of `_load` and takes the
exclusive lock only inside `_save`, so the schedule in which both concurrent
`get_due_reminders` callers load before either saves is admitted; on a store
holding one due reminder, both callers then report that same reminder. -/
theorem c2_overlapped_calls_both_report :
    (dueTwoCallersOverlapped demoNow [tPast]).1 = [markNotified tPast]
      ∧ (dueTwoCallersOverlapped demoNow [tPast]).2.1 = [markNotified tPast] := by
  decide

/-- C3: `get_task` returns a stored record with the exactly matching id when
one exists; with no exact match it returns the unique record whose id starts
with the lookup string provided the string has length at least 4 and exactly
one record matches; in every other case (zero prefix matches, several prefix
matches, or a string shorter than 4 characters) it returns `none`. -/
theorem c3_get_task_resolution (tasks : List TaskRecord) (s : String) :
    ((∃ t ∈ tasks, t.id = s) →
        (get_task s tasks).isSome = true
          ∧ ∀ u, get_task s tasks = some u → u ∈ tasks ∧ u.id = s)
      ∧ ((∀ t ∈ tasks, t.id ≠ s) →
          ((s.length ≥ 4
              ∧ (tasks.filter (fun t => strStartsWith t.id s)).length = 1) →
            get_task s tasks
                = (tasks.filter (fun t => strStartsWith t.id s)).head?
              ∧ (get_task s tasks).isSome = true)
          ∧ (¬(s.length ≥ 4
                ∧ (tasks.filter (fun t => strStartsWith t.id s)).length = 1) →
            get_task s tasks = none)) := by
  constructor
  · rintro ⟨t, ht, hid⟩
    have hsome : (tasks.find? (fun u => u.id == s)).isSome := by
      rw [List.find?_isSome]
      exact ⟨t, ht, by simp [hid]⟩
    obtain ⟨u, hu⟩ := Option.isSome_iff_exists.mp hsome
    refine ⟨?_, ?_⟩
    · unfold get_task
      rw [hu]
      rfl
    · intro v hv
      unfold get_task at hv
      rw [hu] at hv
      cases hv
      refine ⟨List.mem_of_find?_eq_some hu, ?_⟩
      have := List.find?_some hu
      simpa using this
  · intro hno
    have hnone : tasks.find? (fun u => u.id == s) = none := by
      rw [List.find?_eq_none]
      intro x hx
      simp [hno x hx]
    constructor
    · rintro ⟨hlen, hone⟩
      obtain ⟨a, hfil⟩ := List.length_eq_one.mp hone
      unfold get_task
      rw [hnone]
      simp only [hfil]
      rw [if_pos hlen]
      simp
    · intro hnot
      unfold get_task
      rw [hnone]
      by_cases hlen : s.length ≥ 4
      · have hne1 : (tasks.filter (fun t => strStartsWith t.id s)).length ≠ 1 :=
          fun h1 => hnot ⟨hlen, h1⟩
        simp only []
        rw [if_pos hlen, if_neg (by simpa using hne1)]
      · simp only []
        rw [if_neg hlen]

theorem c3_witness :
    get_task ("abc1") demoPair
        = (demoPair.filter (fun t => strStartsWith t.id ("abc1"))).head?
      ∧ (get_task ("abc1") demoPair).isSome = true :=
  ((c3_get_task_resolution demoPair ("abc1")).2 (by decide)).1 (by decide)

theorem isOverdueB_eq_spec (now : String) (t : TaskRecord) (hw : wfTask t) :
    isOverdueB now t
      = (t.status == "pending"
          && (match t.due_at with
              | some d => strLt d now
              | none => false)) := by
  unfold isOverdueB optTruthy
  cases h : t.due_at with
  | none => simp
  | some d =>
    have hd : (d == "") = false := by
      have : ¬(d = "") := fun he => hw.2 (by rw [h, he])
      simpa using this
    simp [h, hd]

/-- C7: with well-formed optional fields, listing with filter `overdue` returns
exactly the pending tasks whose `due_at` is set and strictly smaller than the
current timestamp under string comparison (so no completed task is returned,
whatever its `due_at`), and filter `all` returns every record in storage
order. -/
theorem c7_list_filter_overdue_and_all (now : String) (tasks : List TaskRecord)
    (hwf : ∀ t ∈ tasks, wfTask t) :
    list_tasks ("overdue") now tasks
        = tasks.filter (fun t =>
            t.status == "pending"
              && (match t.due_at with
                  | some d => strLt d now
                  | none => false))
      ∧ ((list_tasks ("overdue") now tasks).all
            (fun t => !(t.status == "completed"))) = true
      ∧ list_tasks ("all") now tasks = tasks := by
  have hover : list_tasks ("overdue") now tasks = tasks.filter (isOverdueB now) := by
    simp [list_tasks]
  refine ⟨?_, ?_, ?_⟩
  · rw [hover]
    exact List.filter_congr (fun t ht => isOverdueB_eq_spec now t (hwf t ht))
  · rw [hover, List.all_eq_true]
    intro t ht
    have hp := (List.mem_filter.mp ht).2
    unfold isOverdueB at hp
    have hs : (t.status == "pending") = true := by
      cases hq : t.status == "pending" <;> simp [hq] at hp ⊢
    have : t.status = "pending" := by simpa using hs
    simp [this]
  · simp [list_tasks]

theorem c7_witness :
    (list_tasks ("overdue") demoNow [tOverduePending, tOverdueCompleted]
        = ([tOverduePending, tOverdueCompleted] : List TaskRecord).filter
            (fun t =>
              t.status == "pending"
                && (match t.due_at with
                    | some d => strLt d demoNow
                    | none => false)))
      ∧ list_tasks ("all") demoNow [tOverduePending, tOverdueCompleted]
          = [tOverduePending, tOverdueCompleted] :=
  ⟨(c7_list_filter_overdue_and_all demoNow [tOverduePending, tOverdueCompleted]
      (by decide)).1,
   (c7_list_filter_overdue_and_all demoNow [tOverduePending, tOverdueCompleted]
      (by decide)).2.2⟩

theorem isDueB_eq_spec (now : String) (t : TaskRecord) (hw : wfTask t) :
    isDueB now t
      = (t.status == "pending"
          && (match t.remind_at with
              | some r => strLe r now
              | none => false)
          && !t.notified) := by
  unfold isDueB optTruthy
  cases h : t.remind_at with
  | none => simp
  | some r =>
    have hr : (r == "") = false := by
      have : ¬(r = "") := fun he => hw.1 (by rw [h, he])
      simpa using this
    simp [h, hr]

theorem due_mem_iff (now : String) (ts : List TaskRecord) (u : TaskRecord) :
    u ∈ (get_due_reminders now ts).due
      ↔ ∃ v ∈ ts, isDueB now v = true ∧ u = markNotified v := by
  rw [get_due_reminders_due]
  constructor
  · intro h
    obtain ⟨v, hv, rfl⟩ := List.mem_map.mp h
    obtain ⟨hmem, hdue⟩ := List.mem_filter.mp hv
    exact ⟨v, hmem, hdue, rfl⟩
  · rintro ⟨v, hmem, hdue, rfl⟩
    exact List.mem_map.mpr ⟨v, List.mem_filter.mpr ⟨hmem, hdue⟩, rfl⟩

theorem isDueB_parts (now : String) (v : TaskRecord) (h : isDueB now v = true) :
    v.status = "pending" ∧ v.notified = false := by
  unfold isDueB at h
  simp only [Bool.and_eq_true] at h
  obtain ⟨⟨⟨hs, _⟩, _⟩, hn⟩ := h
  exact ⟨by simpa using hs, by simpa using hn⟩

theorem due_mem_notified (now : String) (ts : List TaskRecord) (u : TaskRecord)
    (h : u ∈ (get_due_reminders now ts).due) : u.notified = true := by
  obtain ⟨v, _, _, rfl⟩ := (due_mem_iff now ts u).mp h
  rfl

theorem markNotified_cancel (u v : TaskRecord) (h : markNotified u = markNotified v)
    (hn : u.notified = v.notified) : u = v := by
  cases u
  cases v
  simp only [markNotified, TaskRecord.mk.injEq] at h ⊢
  obtain ⟨h1, h2, h3, h4, h5, h6, _, h8⟩ := h
  exact ⟨h1, h2, h3, h4, h5, h6, hn, h8⟩

/-- C1: with well-formed optional fields, one `get_due_reminders` call returns
exactly the pending, not-yet-notified records whose `remind_at` is set and at
most the current timestamp, and persists the collection with precisely those
records marked `notified`; consequently a task added with a past `remind_at`
is returned (marked) by the first call and is not returned by an immediately
following second call, at any second-call timestamp. -/
theorem c1_due_reminders_fire_once (now : String) (tasks : List TaskRecord)
    (hwf : ∀ t ∈ tasks, wfTask t) :
    (get_due_reminders now tasks).due
        = (tasks.filter (fun t =>
            t.status == "pending"
              && (match t.remind_at with
                  | some r => strLe r now
                  | none => false)
              && !t.notified)).map markNotified
      ∧ (get_due_reminders now tasks).state
          = tasks.map (fun t =>
              if t.status == "pending"
                  && (match t.remind_at with
                      | some r => strLe r now
                      | none => false)
                  && !t.notified
                then markNotified t
                else t)
      ∧ ∀ genId title description created_at now2 r : String,
          ∀ due_at : Option String,
          r ≠ "" →
          strLe r now = true →
          (markNotified (add_task genId title description due_at (some r)
                created_at tasks).1
              ∈ (get_due_reminders now
                  (add_task genId title description due_at (some r)
                    created_at tasks).2).due)
            ∧ markNotified (add_task genId title description due_at (some r)
                  created_at tasks).1
                ∉ (get_due_reminders now2
                    (get_due_reminders now
                      (add_task genId title description due_at (some r)
                        created_at tasks).2).state).due
            ∧ (add_task genId title description due_at (some r)
                  created_at tasks).1
                ∉ (get_due_reminders now2
                    (get_due_reminders now
                      (add_task genId title description due_at (some r)
                        created_at tasks).2).state).due := by
  refine ⟨?_, ?_, ?_⟩
  · rw [get_due_reminders_due]
    congr 1
    exact List.filter_congr (fun t ht => isDueB_eq_spec now t (hwf t ht))
  · rw [get_due_reminders_state]
    apply List.map_congr_left
    intro t ht
    rw [isDueB_eq_spec now t (hwf t ht)]
  · intro genId title description created_at now2 r due_at hr hle
    have hrb : (r == "") = false := by simpa using hr
    have hnt_due : isDueB now
        (add_task genId title description due_at (some r) created_at tasks).1
          = true := by
      unfold isDueB add_task optTruthy
      simp [hrb, hle]
    have hnt_not : (add_task genId title description due_at (some r) created_at
        tasks).1.notified = false := rfl
    refine ⟨?_, ?_, ?_⟩
    · refine (due_mem_iff now _ _).mpr ⟨_, ?_, hnt_due, rfl⟩
      unfold add_task
      simp
    · intro hmem
      obtain ⟨v, hv, hvdue, heq⟩ := (due_mem_iff now2 _ _).mp hmem
      have hvn : v.notified = false := (isDueB_parts now2 v hvdue).2
      rw [get_due_reminders_state] at hv
      obtain ⟨w, hw, hwe⟩ := List.mem_map.mp hv
      cases hwd : isDueB now w with
      | true =>
        rw [hwd] at hwe
        simp only [if_true] at hwe
        have : v.notified = true := by rw [← hwe]; rfl
        rw [this] at hvn
        cases hvn
      | false =>
        rw [hwd] at hwe
        simp only [Bool.false_eq_true, if_false] at hwe
        have hveq : (add_task genId title description due_at (some r) created_at
            tasks).1 = v :=
          markNotified_cancel _ _ heq (by rw [hvn]; exact hnt_not)
        rw [hwe, ← hveq] at hwd
        rw [hnt_due] at hwd
        cases hwd
    · intro hmem
      have := due_mem_notified now2 _ _ hmem
      rw [hnt_not] at this
      cases this

theorem c1_witness :
    (markNotified (add_task ("aaaabbbb") ("Past reminder") ("") none
          (some ("2020-01-01T00:00:00+00:00")) ("2019-01-01T00:00:00+00:00")
          [tFuture]).1
        ∈ (get_due_reminders demoNow
            (add_task ("aaaabbbb") ("Past reminder") ("") none
              (some ("2020-01-01T00:00:00+00:00")) ("2019-01-01T00:00:00+00:00")
              [tFuture]).2).due)
      ∧ markNotified (add_task ("aaaabbbb") ("Past reminder") ("") none
            (some ("2020-01-01T00:00:00+00:00")) ("2019-01-01T00:00:00+00:00")
            [tFuture]).1
          ∉ (get_due_reminders demoLater
              (get_due_reminders demoNow
                (add_task ("aaaabbbb") ("Past reminder") ("") none
                  (some ("2020-01-01T00:00:00+00:00"))
                  ("2019-01-01T00:00:00+00:00") [tFuture]).2).state).due
      ∧ (add_task ("aaaabbbb") ("Past reminder") ("") none
            (some ("2020-01-01T00:00:00+00:00")) ("2019-01-01T00:00:00+00:00")
            [tFuture]).1
          ∉ (get_due_reminders demoLater
              (get_due_reminders demoNow
                (add_task ("aaaabbbb") ("Past reminder") ("") none
                  (some ("2020-01-01T00:00:00+00:00"))
                  ("2019-01-01T00:00:00+00:00") [tFuture]).2).state).due :=
  (c1_due_reminders_fire_once demoNow [tFuture] (by decide)).2.2
    ("aaaabbbb") ("Past reminder") ("") ("2019-01-01T00:00:00+00:00") demoLater
    ("2020-01-01T00:00:00+00:00") none (by decide) (by decide)

theorem update_task_some (task_id : String) (f : FieldUpdates)
    (tasks : List TaskRecord) (t : TaskRecord) (tasks2 : List TaskRecord)
    (h : update_task task_id f tasks = (some t, tasks2)) :
    ∃ i, ∃ hi : i < tasks.length,
      t = applyFields (tasks[i]) f ∧ tasks2 = tasks.set i t := by
  unfold update_task at h
  split at h
  · exact absurd h (by simp)
  · split at h
    · exact absurd h (by simp)
    · rename_i x1 i hidx x2 orig hget
      simp only [Prod.mk.injEq, Option.some.injEq] at h
      obtain ⟨h1, h2⟩ := h
      have hi : i < tasks.length := (List.get?_eq_some.mp hget).1
      have horig : tasks[i] = orig := by
        rw [List.get?_eq_getElem?] at hget
        exact (List.getElem?_eq_some.mp hget).2
      refine ⟨i, hi, ?_, ?_⟩
      · rw [horig]
        exact h1.symm
      · rw [← h2, h1]

theorem mem_set_with_nodup_id (l : List TaskRecord) (i : Nat) (hi : i < l.length)
    (a u : TaskRecord) (hn : idsNodup l) (ha : a.id = (l[i]).id)
    (hu : u ∈ l.set i a) (huid : u.id = a.id) : u = a := by
  obtain ⟨j, hj, hget⟩ := List.mem_iff_getElem.mp hu
  rw [List.getElem_set] at hget
  by_cases hij : i = j
  · rw [if_pos hij] at hget
    exact hget.symm
  · rw [if_neg hij] at hget
    have hjl : j < l.length := by simpa using hj
    have hids : (l[j]).id = (l[i]).id := by
      rw [hget, huid, ha]
    have hj2 : j < (l.map TaskRecord.id).length := by simpa
    have hi2 : i < (l.map TaskRecord.id).length := by simpa
    have hmap : (l.map TaskRecord.id)[j] = (l.map TaskRecord.id)[i] := by
      simpa using hids
    have := (List.Nodup.getElem_inj_iff hn).mp hmap
    exact absurd this.symm hij

theorem completedForId_due_state (tid now : String) (ts : List TaskRecord)
    (h : completedForId tid ts) :
    completedForId tid (get_due_reminders now ts).state := by
  rw [get_due_reminders_state]
  intro u hu huid
  obtain ⟨w, hw, hwe⟩ := List.mem_map.mp hu
  cases hdw : isDueB now w with
  | true =>
    rw [hdw] at hwe
    simp only [if_true] at hwe
    rw [← hwe] at huid ⊢
    exact h w hw huid
  | false =>
    rw [hdw] at hwe
    simp only [Bool.false_eq_true, if_false] at hwe
    rw [← hwe] at huid ⊢
    exact h w hw huid

theorem completedForId_chain (tid : String) (nows : List String)
    (ts : List TaskRecord) (h : completedForId tid ts) :
    completedForId tid (dueChainState nows ts) := by
  induction nows generalizing ts with
  | nil => exact h
  | cons n ns ih =>
    have hstep : dueChainState (n :: ns) ts
        = dueChainState ns (get_due_reminders n ts).state := rfl
    rw [hstep]
    exact ih _ (completedForId_due_state tid n ts h)

theorem due_all_id_ne (tid now : String) (ts : List TaskRecord)
    (h : completedForId tid ts) :
    ((get_due_reminders now ts).due.all (fun u => !(u.id == tid))) = true := by
  rw [List.all_eq_true]
  intro u hu
  obtain ⟨v, hvmem, hvdue, rfl⟩ := (due_mem_iff now ts u).mp hu
  have hp := (isDueB_parts now v hvdue).1
  by_contra hne
  have hveq : (markNotified v).id = tid := by
    cases hq : ((markNotified v).id == tid) with
    | true => simpa using hq
    | false => rw [hq] at hne; exact (hne rfl).elim
  have hvid : v.id = tid := hveq
  have := h v hvmem hvid
  rw [hp] at this
  exact absurd this (by decide)

/-- C6: no completed task is ever contained in the list returned by
`get_due_reminders`, and once `complete_task` resolves an id and marks the
record completed, every later chain of `get_due_reminders` calls (at any
sequence of timestamps) returns no record carrying that id, whatever its
`remind_at` and `notified` values. -/
theorem c6_completed_never_reported (now tid : String) (tasks : List TaskRecord)
    (hn : idsNodup tasks) :
    ((get_due_reminders now tasks).due.all
        (fun t => !(t.status == "completed"))) = true
      ∧ ∀ t tasks2, complete_task tid tasks = (some t, tasks2) →
          t.status = "completed"
            ∧ ∀ nows : List String, ∀ now2 : String,
                ((get_due_reminders now2 (dueChainState nows tasks2)).due.all
                    (fun u => !(u.id == t.id))) = true := by
  constructor
  · rw [List.all_eq_true]
    intro u hu
    obtain ⟨v, _, hvdue, rfl⟩ := (due_mem_iff now tasks u).mp hu
    have hp := (isDueB_parts now v hvdue).1
    have hs : (markNotified v).status = "pending" := hp
    rw [hs]
    decide
  · intro t tasks2 hc
    have hc2 : update_task tid { status := some ("completed") } tasks
        = (some t, tasks2) := hc
    obtain ⟨i, hi, ht, hts2⟩ := update_task_some tid _ tasks t tasks2 hc2
    have hstatus : t.status = "completed" := by rw [ht]; rfl
    have hid : t.id = (tasks[i]).id := by rw [ht]; rfl
    refine ⟨hstatus, ?_⟩
    intro nows now2
    apply due_all_id_ne
    apply completedForId_chain
    intro u hu huid
    rw [hts2] at hu
    have heq := mem_set_with_nodup_id tasks i hi t u hn hid hu huid
    rw [heq]
    exact hstatus

theorem c6_witness :
    ((get_due_reminders demoNow [tPast]).due.all
        (fun t => !(t.status == "completed"))) = true
      ∧ tPastCompleted.status = "completed"
      ∧ ((get_due_reminders demoLater
            (dueChainState [demoNow] [tPastCompleted])).due.all
          (fun u => !(u.id == tPastCompleted.id))) = true := by
  have h := c6_completed_never_reported demoNow ("aaaabbbb") [tPast] (by decide)
  have h2 := h.2 tPastCompleted [tPastCompleted] (by decide)
  exact ⟨h.1, h2.1, h2.2 [demoNow] demoLater⟩

theorem id_unique_of_nodup (l : List TaskRecord) (hn : idsNodup l)
    (t u : TaskRecord) (ht : t ∈ l) (hu : u ∈ l) (h : u.id = t.id) : u = t :=
  List.inj_on_of_nodup_map hn hu ht h

theorem mem_set_cases (l : List TaskRecord) (i : Nat) (a u : TaskRecord)
    (hu : u ∈ l.set i a) : (i < l.length ∧ u = a) ∨ u ∈ l := by
  obtain ⟨j, hj, hget⟩ := List.mem_iff_getElem.mp hu
  rw [List.getElem_set] at hget
  by_cases hij : i = j
  · subst hij
    rw [if_pos rfl] at hget
    left
    exact ⟨by simpa using hj, hget.symm⟩
  · rw [if_neg hij] at hget
    right
    rw [← hget]
    exact List.getElem_mem _

theorem update_task_snd (task_id : String) (f : FieldUpdates)
    (tasks : List TaskRecord) :
    (update_task task_id f tasks).2 = tasks
      ∨ ∃ i, ∃ hi : i < tasks.length,
          (update_task task_id f tasks).2
            = tasks.set i (applyFields (tasks[i]) f) := by
  unfold update_task
  split
  · left; rfl
  · split
    · left; rfl
    · rename_i x1 i hidx x2 orig hget
      right
      have hi : i < tasks.length := (List.get?_eq_some.mp hget).1
      have horig : tasks[i] = orig := by
        rw [List.get?_eq_getElem?] at hget
        exact (List.getElem?_eq_some.mp hget).2
      exact ⟨i, hi, by simp [horig]⟩

theorem delete_task_snd (task_id : String) (tasks : List TaskRecord) :
    (delete_task task_id tasks).2 = tasks
      ∨ ∃ i, (delete_task task_id tasks).2 = tasks.eraseIdx i := by
  unfold delete_task
  split
  · left; rfl
  · split
    · left; rfl
    · rename_i x1 i hidx x2 orig hget
      right
      exact ⟨i, rfl⟩

theorem mono_update (task_id : String) (f : FieldUpdates)
    (tasks : List TaskRecord) (hn : idsNodup tasks)
    (hfn : f.notified = none) (hfi : f.id = none) :
    monoNotified tasks (update_task task_id f tasks).2 := by
  intro t ht htn u hu huid
  rcases update_task_snd task_id f tasks with hcase | ⟨i, hi, hcase⟩
  · rw [hcase] at hu
    rw [id_unique_of_nodup tasks hn t u ht hu huid]
    exact htn
  · rw [hcase] at hu
    rcases mem_set_cases tasks i _ u hu with ⟨_, rfl⟩ | humem
    · have hid2 : (applyFields (tasks[i]) f).id = (tasks[i]).id := by
        unfold applyFields
        rw [hfi]
        rfl
      have hnot2 : (applyFields (tasks[i]) f).notified = (tasks[i]).notified := by
        unfold applyFields
        rw [hfn]
        rfl
      have hti : tasks[i] = t :=
        id_unique_of_nodup tasks hn t (tasks[i]) ht (List.getElem_mem hi)
          (by rw [← hid2]; exact huid)
      rw [hnot2, hti]
      exact htn
    · rw [id_unique_of_nodup tasks hn t u ht humem huid]
      exact htn

/-- C5 amended: once a record's `notified` flag is true, it stays true in
every record carrying the same id across `add_task` (with a fresh generated
id), `update_task` whose field dict supplies neither `notified` nor `id`,
`complete_task`, `delete_task` and `get_due_reminders`, for stores with
pairwise-distinct ids; `get_task` and `list_tasks` perform no write at all.
An `update_task` call whose field dict contains `notified=False` does reset
the flag (see the counterexample), so monotonicity holds only for updates
that leave `notified` and `id` unsupplied. -/
theorem c5_notified_monotonic_amended (tasks : List TaskRecord)
    (task_id genId title description created_at now : String)
    (due_at0 remind_at0 : Option String) (f : FieldUpdates)
    (hn : idsNodup tasks)
    (hfresh : ¬ genId ∈ tasks.map TaskRecord.id)
    (hfn : f.notified = none) (hfi : f.id = none) :
    monoNotified tasks
        (add_task genId title description due_at0 remind_at0 created_at tasks).2
      ∧ monoNotified tasks (update_task task_id f tasks).2
      ∧ monoNotified tasks (complete_task task_id tasks).2
      ∧ monoNotified tasks (delete_task task_id tasks).2
      ∧ monoNotified tasks (get_due_reminders now tasks).state := by
  refine ⟨?_, mono_update task_id f tasks hn hfn hfi,
      mono_update task_id _ tasks hn rfl rfl, ?_, ?_⟩
  · intro t ht htn u hu huid
    unfold add_task at hu
    rcases List.mem_append.mp hu with h1 | h2
    · rw [id_unique_of_nodup tasks hn t u ht h1 huid]
      exact htn
    · have hu2 := List.mem_singleton.mp h2
      have hgid : u.id = genId := by rw [hu2]
      have : genId ∈ tasks.map TaskRecord.id := by
        rw [← hgid, huid]
        exact List.mem_map_of_mem TaskRecord.id ht
      exact absurd this hfresh
  · intro t ht htn u hu huid
    rcases delete_task_snd task_id tasks with hcase | ⟨i, hcase⟩
    · rw [hcase] at hu
      rw [id_unique_of_nodup tasks hn t u ht hu huid]
      exact htn
    · rw [hcase] at hu
      have humem : u ∈ tasks := (List.eraseIdx_sublist tasks i).subset hu
      rw [id_unique_of_nodup tasks hn t u ht humem huid]
      exact htn
  · intro t ht htn u hu huid
    rw [get_due_reminders_state] at hu
    obtain ⟨w, hw, hwe⟩ := List.mem_map.mp hu
    cases hdw : isDueB now w with
    | true =>
      rw [hdw] at hwe
      simp only [if_true] at hwe
      rw [← hwe]
      rfl
    | false =>
      rw [hdw] at hwe
      simp only [Bool.false_eq_true, if_false] at hwe
      rw [← hwe] at huid ⊢
      rw [id_unique_of_nodup tasks hn t w ht hw huid]
      exact htn

theorem c5_witness :
    monoNotified [tNotified]
        (add_task ("aaaabbbb") ("Task A") ("") none none
          ("2026-01-01T00:00:00+00:00") [tNotified]).2
      ∧ monoNotified [tNotified]
          (update_task ("33334444") { title := some ("Renamed") } [tNotified]).2
      ∧ monoNotified [tNotified] (complete_task ("33334444") [tNotified]).2
      ∧ monoNotified [tNotified] (delete_task ("33334444") [tNotified]).2
      ∧ monoNotified [tNotified] (get_due_reminders demoNow [tNotified]).state :=
  c5_notified_monotonic_amended [tNotified] ("33334444") ("aaaabbbb") ("Task A")
    ("") ("2026-01-01T00:00:00+00:00") demoNow none none
    { title := some ("Renamed") } (by decide) (by decide) rfl rfl
